import Mathlib

/-!
# Mania Mod Loader: the mod event lists

A shallow embedding of `ManiaModLoader/Events.cpp` and `ManiaModLoaderEGS/Events.h`:
the five global event lists, `RegisterEvent` (resolve an export, append it when it is
not null) and `RaiseEvents` (call every entry of a list, front to back).

Conventions of the embedding.

* A `ModEvent` is a function pointer; it is represented by its address, and
  `nullptr` is address `0`. `ManiaModLoader.h`, which declares the pointer type,
  is not among the sources; only the comparison with `nullptr` and the call
  `i()` are used here.
* `GetProcAddress` is the Win32 symbol resolver. It is taken as a parameter
  `HMODULE → String → ModEvent` wherever `RegisterEvent` uses it.
* What the code behind a pointer does when it is called is a parameter too:
  a function from the pointer and the state of the process to an `Outcome`,
  either returning with a new state or failing (a C++ exception leaving the
  callback) with a failure value and the state reached so far.
* `std::vector<ModEvent>` is a `List ModEvent`; `push_back` appends at the end.
  A callback is assumed not to resize the list that is being iterated.
-/

namespace ManiaModLoader

/-- Function pointer `ModEvent`, represented by its address. -/
abbrev ModEvent := Nat

/-- The null pointer. -/
def nullptr : ModEvent := 0

/-- Handle of a loaded module. -/
abbrev HMODULE := Nat

/-- Signature of the symbol resolver `GetProcAddress(module, name)`. -/
abbrev Resolver := HMODULE → String → ModEvent

/-- Result of running code that may leave by a failure: it either returns with
the new state, or fails with a failure value and the state reached so far. -/
inductive Outcome (E W : Type) where
  | returned (w : W) : Outcome E W
  | failed (e : E) (w : W) : Outcome E W
  deriving DecidableEq, Repr

/-- State in which the run ended, whichever way it ended. -/
def Outcome.state {E W : Type} : Outcome E W → W
  | .returned w => w
  | .failed _ w => w

/-- Behaviour of the code behind each pointer: `call i w` is the call `i()` made
in state `w`. -/
abbrev Callbacks (E W : Type) := ModEvent → W → Outcome E W

/-- `RegisterEvent(eventList, module, name)` of `Events.cpp`: resolve `name` in
`module`; when the result is not `nullptr`, `push_back` it. The value is the
event list after the call. -/
def RegisterEvent (GetProcAddress : Resolver) (eventList : List ModEvent)
    (module : HMODULE) (name : String) : List ModEvent :=
  let modEvent : ModEvent := GetProcAddress module name
  if modEvent != nullptr then
    eventList ++ [modEvent]
  else
    eventList

/-- `RaiseEvents(eventList)` of `Events.h`: `for (auto &i : eventList) i();`.
Each entry is called in the state left by the previous one. Nothing is caught:
a failure of `i()` leaves the loop at once and is the outcome of the whole call. -/
def RaiseEvents {E W : Type} (call : Callbacks E W) : List ModEvent → W → Outcome E W
  | [], w => .returned w
  | i :: rest, w =>
    match call i w with
    | .returned w1 => RaiseEvents call rest w1
    | .failed e w1 => .failed e w1

/-- Instrumentation of the callbacks with an invocation trace: the state is
paired with the list of pointers called so far, and every call `i()` appends `i`
to it at the moment it is made, whether the callback then returns or fails. -/
def traced {E W : Type} (call : Callbacks E W) : Callbacks E (W × List ModEvent) :=
  fun i s =>
    match call i s.1 with
    | .returned w1 => .returned (w1, s.2 ++ [i])
    | .failed e w1 => .failed e (w1, s.2 ++ [i])

/-- Callbacks that always return: `step i w` is the state after `i()`. -/
def returning {E W : Type} (step : ModEvent → W → W) : Callbacks E W :=
  fun i w => .returned (step i w)

/-- The five global event lists of `Events.cpp`. -/
structure EventLists where
  modLinkEvents : List ModEvent
  modScreenUpdateEvents : List ModEvent
  modScreenDrawUpdateEvents : List ModEvent
  modFrameEvents : List ModEvent
  modFramePostEvents : List ModEvent
  deriving DecidableEq, Repr

/-- Value of the five globals at process start: default-constructed vectors. -/
def EventLists.initial : EventLists :=
  { modLinkEvents := [], modScreenUpdateEvents := [], modScreenDrawUpdateEvents := [],
    modFrameEvents := [], modFramePostEvents := [] }

/-- Which of the five globals a call passes as `eventList`. -/
inductive EventListId where
  | link | screenUpdate | screenDrawUpdate | frame | framePost
  deriving DecidableEq, Repr

/-- The global a reference denotes. -/
def EventLists.get (g : EventLists) : EventListId → List ModEvent
  | .link => g.modLinkEvents
  | .screenUpdate => g.modScreenUpdateEvents
  | .screenDrawUpdate => g.modScreenDrawUpdateEvents
  | .frame => g.modFrameEvents
  | .framePost => g.modFramePostEvents

/-- Assignment through a reference to one of the globals. -/
def EventLists.set (g : EventLists) (id : EventListId) (l : List ModEvent) : EventLists :=
  match id with
  | .link => { g with modLinkEvents := l }
  | .screenUpdate => { g with modScreenUpdateEvents := l }
  | .screenDrawUpdate => { g with modScreenDrawUpdateEvents := l }
  | .frame => { g with modFrameEvents := l }
  | .framePost => { g with modFramePostEvents := l }

/-- One call `RegisterEvent(eventList, module, name)` on a global: the list it
targets, the module and name, and the resolver as it answers at that moment. -/
structure RegisterCall where
  resolver : Resolver
  target : EventListId
  module : HMODULE
  name : String

/-- Effect of one `RegisterEvent` call on the five globals. -/
def EventLists.register (g : EventLists) (c : RegisterCall) : EventLists :=
  g.set c.target (RegisterEvent c.resolver (g.get c.target) c.module c.name)

/-- A finite series of `RegisterEvent` calls on the globals, in order. -/
def EventLists.registerAll (g : EventLists) (cs : List RegisterCall) : EventLists :=
  cs.foldl EventLists.register g

/-- `RegisterEvent` applied to one list for each request `(module, name)` in order. -/
def registerEach (GetProcAddress : Resolver) (eventList : List ModEvent)
    (requests : List (HMODULE × String)) : List ModEvent :=
  requests.foldl (fun l r => RegisterEvent GetProcAddress l r.1 r.2) eventList

/-- Reference definition of the registry's state, in the words of the
specification: the non-null resolver results for the requests, in request order. -/
def resolvedCallbacks (resolve : Resolver) (requests : List (HMODULE × String)) :
    List ModEvent :=
  requests.filterMap (fun r => if resolve r.1 r.2 = nullptr then none else some (resolve r.1 r.2))

/-- Every entry of a list is a non-null pointer. -/
def NoNull (l : List ModEvent) : Prop := ∀ p ∈ l, p ≠ nullptr

/-- A module `1` that exports `OnFrame` at address `4096` and nothing else. -/
def sampleResolver : Resolver :=
  fun m n => if m = 1 ∧ n = "OnFrame" then 4096 else 0

/-- Sample callbacks on a counter: the code at an odd address fails with its
own address as failure value, any other code adds its address to the counter. -/
def sampleCall : Callbacks Nat Nat :=
  fun i w => if i % 2 = 1 then .failed i w else .returned (w + i)

/-- Pointers called by `RaiseEvents(eventList)` started in state `w`, in the
order of the calls, whether the raise returns or is left by a failure. -/
def invocations {E W : Type} (call : Callbacks E W) (eventList : List ModEvent) (w : W) :
    List ModEvent :=
  (RaiseEvents (traced call) eventList (w, [])).state.2

/-! ## Lemmas on `RegisterEvent` -/

theorem RegisterEvent_null (r : Resolver) (L : List ModEvent) (m : HMODULE) (n : String)
    (h : r m n = nullptr) : RegisterEvent r L m n = L := by
  simp [RegisterEvent, h]

theorem RegisterEvent_resolved (r : Resolver) (L : List ModEvent) (m : HMODULE) (n : String)
    (h : r m n ≠ nullptr) : RegisterEvent r L m n = L ++ [r m n] := by
  simp [RegisterEvent, h]

theorem RegisterEvent_noNull (r : Resolver) (L : List ModEvent) (m : HMODULE) (n : String)
    (h : NoNull L) : NoNull (RegisterEvent r L m n) := by
  by_cases hr : r m n = nullptr
  · rw [RegisterEvent_null r L m n hr]; exact h
  · rw [RegisterEvent_resolved r L m n hr]
    intro p hp
    rcases List.mem_append.mp hp with hp | hp
    · exact h p hp
    · rw [List.mem_singleton.mp hp]; exact hr

theorem registerEach_eq (r : Resolver) (requests : List (HMODULE × String)) :
    ∀ L : List ModEvent, registerEach r L requests = L ++ resolvedCallbacks r requests := by
  induction requests with
  | nil => intro L; simp [registerEach, resolvedCallbacks]
  | cons q qs ih =>
    intro L
    have hstep : registerEach r L (q :: qs) = registerEach r (RegisterEvent r L q.1 q.2) qs := by
      simp [registerEach]
    rw [hstep, ih]
    by_cases hr : r q.1 q.2 = nullptr
    · rw [RegisterEvent_null r L q.1 q.2 hr]
      simp [resolvedCallbacks, List.filterMap_cons, hr]
    · rw [RegisterEvent_resolved r L q.1 q.2 hr]
      simp [resolvedCallbacks, List.filterMap_cons, hr]

/-! ## Lemmas on `RaiseEvents` -/

theorem RaiseEvents_append {E W : Type} (call : Callbacks E W) (l2 : List ModEvent) :
    ∀ (l1 : List ModEvent) (w : W),
      RaiseEvents call (l1 ++ l2) w =
        match RaiseEvents call l1 w with
        | .returned w1 => RaiseEvents call l2 w1
        | .failed e w1 => .failed e w1 := by
  intro l1
  induction l1 with
  | nil => intro w; simp [RaiseEvents]
  | cons i rest ih =>
    intro w
    cases h : call i w with
    | returned w1 => simp [RaiseEvents, h, ih]
    | failed e w1 => simp [RaiseEvents, h]

theorem RaiseEvents_traced_returned {E W : Type} (call : Callbacks E W) :
    ∀ (L : List ModEvent) (w w1 : W) (t : List ModEvent),
      RaiseEvents call L w = .returned w1 →
        RaiseEvents (traced call) L (w, t) = .returned (w1, t ++ L) := by
  intro L
  induction L with
  | nil =>
    intro w w1 t h
    simp [RaiseEvents] at h
    simp [RaiseEvents, h]
  | cons i rest ih =>
    intro w w1 t h
    cases hc : call i w with
    | returned w2 =>
      simp [RaiseEvents, hc] at h
      simp [RaiseEvents, traced, hc, ih w2 w1 (t ++ [i]) h]
    | failed e w2 => simp [RaiseEvents, hc] at h

theorem RaiseEvents_returning {E W : Type} (step : ModEvent → W → W) :
    ∀ (L : List ModEvent) (w : W),
      RaiseEvents (returning step : Callbacks E W) L w
        = .returned (L.foldl (fun s i => step i s) w) := by
  intro L
  induction L with
  | nil => intro w; simp [RaiseEvents]
  | cons i rest ih => intro w; simp [RaiseEvents, returning, ih]

theorem RaiseEvents_traced_returning {E W : Type} (step : ModEvent → W → W)
    (L : List ModEvent) (w : W) (t : List ModEvent) :
    RaiseEvents (traced (returning step : Callbacks E W)) L (w, t)
      = .returned (L.foldl (fun s i => step i s) w, t ++ L) :=
  RaiseEvents_traced_returned (returning step) L w _ t (RaiseEvents_returning step L w)

theorem invocations_returning {E W : Type} (step : ModEvent → W → W)
    (L : List ModEvent) (w : W) :
    invocations (returning step : Callbacks E W) L w = L := by
  simp [invocations, RaiseEvents_traced_returning, Outcome.state]

theorem RaiseEvents_failure_at {E W : Type} (call : Callbacks E W)
    (front back : List ModEvent) (f : ModEvent) (w w1 w2 : W) (e : E)
    (hfront : RaiseEvents call front w = .returned w1) (hfail : call f w1 = .failed e w2) :
    RaiseEvents call (front ++ f :: back) w = .failed e w2 := by
  rw [RaiseEvents_append, hfront]
  simp [RaiseEvents, hfail]

theorem traced_failed {E W : Type} (call : Callbacks E W) (f : ModEvent) (w1 w2 : W) (e : E)
    (t : List ModEvent) (hfail : call f w1 = .failed e w2) :
    traced call f (w1, t) = .failed e (w2, t ++ [f]) := by
  simp [traced, hfail]

theorem EventLists.get_set (g : EventLists) (a b : EventListId) (l : List ModEvent) :
    (g.set a l).get b = if b = a then l else g.get b := by
  cases a <;> cases b <;> simp [EventLists.set, EventLists.get]

theorem EventLists.register_noNull (g : EventLists) (c : RegisterCall)
    (h : ∀ id, NoNull (g.get id)) : ∀ id, NoNull ((g.register c).get id) := by
  intro id
  unfold EventLists.register
  rw [EventLists.get_set]
  by_cases hid : id = c.target
  · rw [if_pos hid]
    exact RegisterEvent_noNull _ _ _ _ (h c.target)
  · rw [if_neg hid]
    exact h id

theorem EventLists.registerAll_noNull (cs : List RegisterCall) :
    ∀ g : EventLists, (∀ id, NoNull (g.get id)) → ∀ id, NoNull ((g.registerAll cs).get id) := by
  induction cs with
  | nil => intro g h id; simpa [EventLists.registerAll] using h id
  | cons c cs ih =>
    intro g h id
    have hstep : g.registerAll (c :: cs) = (g.register c).registerAll cs := by
      simp [EventLists.registerAll]
    rw [hstep]
    exact ih (g.register c) (EventLists.register_noNull g c h) id

theorem EventLists.initial_noNull (id : EventListId) : NoNull (EventLists.initial.get id) := by
  cases id <;> simp [EventLists.initial, EventLists.get, NoNull]

/-! ## The claims -/

/-- C1: `RaiseEvents(L)` calls exactly the entries of `L`, once each, from first
to last. With callbacks that return (whatever else they do to the state), the
trace of the calls made by `RaiseEvents(L)` is `L` itself: it has the length of
`L` and its `i`-th call is `L[i]`. -/
theorem raiseEvents_calls_entries_in_order (E W : Type) (step : ModEvent → W → W)
    (L : List ModEvent) (w : W) :
    RaiseEvents (traced (returning step : Callbacks E W)) L (w, [])
        = .returned (L.foldl (fun s i => step i s) w, L)
      ∧ invocations (returning step : Callbacks E W) L w = L
      ∧ (invocations (returning step : Callbacks E W) L w).length = L.length
      ∧ ∀ i : Nat, (invocations (returning step : Callbacks E W) L w)[i]? = L[i]? := by
  have h := invocations_returning (E := E) step L w
  refine ⟨?_, h, ?_, ?_⟩
  · simpa using RaiseEvents_traced_returning (E := E) step L w []
  · rw [h]
  · intro i; rw [h]

/-- C2: when `GetProcAddress(module, name)` is null, `RegisterEvent` leaves the
event list as it was; the length in particular is unchanged. The call has no
other result: it cannot report an error. -/
theorem registerEvent_unresolved_is_noop (r : Resolver) (L : List ModEvent) (m : HMODULE)
    (n : String) (h : r m n = nullptr) :
    RegisterEvent r L m n = L ∧ (RegisterEvent r L m n).length = L.length := by
  rw [RegisterEvent_null r L m n h]
  exact ⟨rfl, rfl⟩

theorem registerEvent_unresolved_is_noop_witness :
    sampleResolver 2 "OnFrame" = nullptr
      ∧ RegisterEvent sampleResolver [7, 9] 2 "OnFrame" = [7, 9]
      ∧ (RegisterEvent sampleResolver [7, 9] 2 "OnFrame").length = [7, 9].length :=
  ⟨by decide, registerEvent_unresolved_is_noop sampleResolver [7, 9] 2 "OnFrame" (by decide)⟩

/-- C3: when `GetProcAddress(module, name)` is a non-null pointer `f`,
`RegisterEvent` leaves the list equal to `L` followed by `f`: one entry longer,
with `f` as the new last entry. -/
theorem registerEvent_resolved_appends (r : Resolver) (L : List ModEvent) (m : HMODULE)
    (n : String) (f : ModEvent) (h : r m n = f) (hf : f ≠ nullptr) :
    RegisterEvent r L m n = L ++ [f]
      ∧ (RegisterEvent r L m n).length = L.length + 1
      ∧ (RegisterEvent r L m n).getLast? = some f := by
  subst h
  rw [RegisterEvent_resolved r L m n hf]
  simp

theorem registerEvent_resolved_appends_witness :
    (sampleResolver 1 "OnFrame" = 4096 ∧ (4096 : ModEvent) ≠ nullptr)
      ∧ RegisterEvent sampleResolver [7, 9] 1 "OnFrame" = [7, 9] ++ [4096]
      ∧ (RegisterEvent sampleResolver [7, 9] 1 "OnFrame").length = [7, 9].length + 1
      ∧ (RegisterEvent sampleResolver [7, 9] 1 "OnFrame").getLast? = some 4096 :=
  ⟨⟨by decide, by decide⟩,
    registerEvent_resolved_appends sampleResolver [7, 9] 1 "OnFrame" 4096 (by decide) (by decide)⟩

/-- C4: no null pointer is ever inside an event list. `RegisterEvent` keeps a
list free of null entries free of them, and each of the five global lists, after
any finite series of `RegisterEvent` calls from the initial empty lists (any
target, module, name and resolver answer at each call), has only non-null
entries. -/
theorem eventLists_never_hold_null :
    (∀ (r : Resolver) (L : List ModEvent) (m : HMODULE) (n : String),
        NoNull L → NoNull (RegisterEvent r L m n))
      ∧ ∀ (cs : List RegisterCall) (id : EventListId),
          NoNull ((EventLists.initial.registerAll cs).get id) :=
  ⟨RegisterEvent_noNull,
    fun cs id => EventLists.registerAll_noNull cs EventLists.initial EventLists.initial_noNull id⟩

theorem eventLists_never_hold_null_witness :
    NoNull [7, 9] ∧ NoNull (RegisterEvent sampleResolver [7, 9] 2 "OnFrame")
      ∧ NoNull ((EventLists.initial.registerAll
          [⟨sampleResolver, .frame, 2, "OnFrame"⟩, ⟨sampleResolver, .frame, 1, "OnFrame"⟩,
            ⟨sampleResolver, .link, 1, "OnLink"⟩]).get .frame) :=
  have h79 : NoNull [7, 9] := by unfold NoNull nullptr; decide
  ⟨h79, eventLists_never_hold_null.1 sampleResolver [7, 9] 2 "OnFrame" h79,
    eventLists_never_hold_null.2 _ .frame⟩

/-- C5: `RaiseEvents` neither catches nor suppresses a failing callback. When
the entries before index `k` return and the entry at index `k` fails with `e`,
`RaiseEvents(L)` fails with that same `e` in the state the callback left, the
calls made are the entries before `k`, once each and in order, followed by the
failing entry, and no entry after index `k` is called. -/
theorem raiseEvents_propagates_first_failure (E W : Type) (call : Callbacks E W)
    (L : List ModEvent) (k : Nat) (hk : k < L.length) (w w1 w2 : W) (e : E)
    (hbefore : RaiseEvents call (L.take k) w = .returned w1)
    (hfail : call (L.get ⟨k, hk⟩) w1 = .failed e w2) :
    RaiseEvents call L w = .failed e w2
      ∧ RaiseEvents (traced call) L (w, []) = .failed e (w2, L.take k ++ [L.get ⟨k, hk⟩])
      ∧ invocations call L w = L.take k ++ [L.get ⟨k, hk⟩]
      ∧ invocations call L w = L.take (k + 1) := by
  have hsplit : L = L.take k ++ L.get ⟨k, hk⟩ :: L.drop (k + 1) := by
    have h1 : L.drop k = L.get ⟨k, hk⟩ :: L.drop (k + 1) := by
      rw [List.get_eq_getElem]
      exact List.drop_eq_getElem_cons hk
    rw [← h1, List.take_append_drop]
  have htake : L.take (k + 1) = L.take k ++ [L.get ⟨k, hk⟩] := by
    rw [List.take_succ, List.getElem?_eq_getElem hk]
    rfl
  have hplain : RaiseEvents call L w = .failed e w2 := by
    rw [hsplit]
    exact RaiseEvents_failure_at call _ _ _ w w1 w2 e hbefore hfail
  have htraced : RaiseEvents (traced call) L (w, [])
      = .failed e (w2, L.take k ++ [L.get ⟨k, hk⟩]) := by
    have hfront := RaiseEvents_traced_returned call (L.take k) w w1 [] hbefore
    have hcall := traced_failed call (L.get ⟨k, hk⟩) w1 w2 e ([] ++ L.take k) hfail
    have h := RaiseEvents_failure_at (traced call) (L.take k) (L.drop (k + 1))
      (L.get ⟨k, hk⟩) (w, []) (w1, [] ++ L.take k) (w2, [] ++ L.take k ++ [L.get ⟨k, hk⟩]) e
      hfront hcall
    rw [← hsplit] at h
    simpa using h
  have hinv : invocations call L w = L.take k ++ [L.get ⟨k, hk⟩] := by
    simp [invocations, htraced, Outcome.state]
  exact ⟨hplain, htraced, hinv, by rw [hinv, htake]⟩

theorem raiseEvents_propagates_first_failure_witness :
    (RaiseEvents sampleCall ([2, 4, 5, 6].take 2) 0 = .returned 6
        ∧ sampleCall ([2, 4, 5, 6].get ⟨2, by decide⟩) 6 = .failed 5 6)
      ∧ RaiseEvents sampleCall [2, 4, 5, 6] 0 = .failed 5 6
      ∧ RaiseEvents (traced sampleCall) [2, 4, 5, 6] (0, [])
          = .failed 5 (6, [2, 4, 5, 6].take 2 ++ [[2, 4, 5, 6].get ⟨2, by decide⟩])
      ∧ invocations sampleCall [2, 4, 5, 6] 0
          = [2, 4, 5, 6].take 2 ++ [[2, 4, 5, 6].get ⟨2, by decide⟩]
      ∧ invocations sampleCall [2, 4, 5, 6] 0 = [2, 4, 5, 6].take (2 + 1) :=
  ⟨⟨by decide, by decide⟩,
    raiseEvents_propagates_first_failure Nat Nat sampleCall [2, 4, 5, 6] 2 (by decide) 0 6 6 5
      (by decide) (by decide)⟩

/-- C6: duplicate registration is kept. When `name` resolves in `module` to a
non-null `f`, two `RegisterEvent` calls leave `L` followed by `f, f`; a raise of
the result calls `f` two more times than a raise of `L`, and from the empty list
it calls `f` exactly twice (callbacks that return). -/
theorem duplicate_registration_is_kept (E W : Type) (step : ModEvent → W → W)
    (r : Resolver) (L : List ModEvent) (m : HMODULE) (n : String) (f : ModEvent) (w : W)
    (h : r m n = f) (hf : f ≠ nullptr) :
    RegisterEvent r (RegisterEvent r L m n) m n = L ++ [f, f]
      ∧ (invocations (returning step : Callbacks E W)
            (RegisterEvent r (RegisterEvent r L m n) m n) w).count f
          = (invocations (returning step : Callbacks E W) L w).count f + 2
      ∧ invocations (returning step : Callbacks E W)
            (RegisterEvent r (RegisterEvent r [] m n) m n) w = [f, f]
      ∧ (invocations (returning step : Callbacks E W)
            (RegisterEvent r (RegisterEvent r [] m n) m n) w).count f = 2 := by
  subst h
  have htwice : ∀ l : List ModEvent,
      RegisterEvent r (RegisterEvent r l m n) m n = l ++ [r m n, r m n] := by
    intro l
    rw [RegisterEvent_resolved r l m n hf, RegisterEvent_resolved r _ m n hf]
    simp
  refine ⟨htwice L, ?_, ?_, ?_⟩
  · rw [htwice L, invocations_returning, invocations_returning]
    simp [List.count_append]
  · rw [htwice [], invocations_returning]
    simp
  · rw [htwice [], invocations_returning]
    simp

theorem duplicate_registration_is_kept_witness :
    (sampleResolver 1 "OnFrame" = 4096 ∧ (4096 : ModEvent) ≠ nullptr)
      ∧ RegisterEvent sampleResolver (RegisterEvent sampleResolver [4096, 8] 1 "OnFrame")
          1 "OnFrame" = [4096, 8] ++ [4096, 4096]
      ∧ (invocations (returning (fun i s => s + i) : Callbacks Nat Nat)
            (RegisterEvent sampleResolver (RegisterEvent sampleResolver [4096, 8] 1 "OnFrame")
              1 "OnFrame") 0).count 4096
          = (invocations (returning (fun i s => s + i) : Callbacks Nat Nat)
              [4096, 8] 0).count 4096 + 2
      ∧ invocations (returning (fun i s => s + i) : Callbacks Nat Nat)
            (RegisterEvent sampleResolver (RegisterEvent sampleResolver [] 1 "OnFrame")
              1 "OnFrame") 0 = [4096, 4096]
      ∧ (invocations (returning (fun i s => s + i) : Callbacks Nat Nat)
            (RegisterEvent sampleResolver (RegisterEvent sampleResolver [] 1 "OnFrame")
              1 "OnFrame") 0).count 4096 = 2 :=
  ⟨⟨by decide, by decide⟩,
    duplicate_registration_is_kept Nat Nat (fun i s => s + i) sampleResolver [4096, 8] 1
      "OnFrame" 4096 0 (by decide) (by decide)⟩

/-- C7: `RaiseEvents` on the empty list calls nothing and changes nothing: it
returns, without failure, the state it was started in, and the trace of calls is
empty, whatever the callbacks would do. -/
theorem raiseEvents_empty_does_nothing (E W : Type) (call : Callbacks E W) (w : W) :
    RaiseEvents call [] w = .returned w
      ∧ RaiseEvents (traced call) [] (w, []) = .returned (w, [])
      ∧ invocations call [] w = [] := by
  simp [RaiseEvents, invocations, Outcome.state]

/-- C8: register then raise on the frame list, from its initial value. When
`"OnFrame"` resolves in the module to a non-null `f`, the raise calls `f` once
and nothing else, and ends the way that one call of `f` ends; when `"OnFrame"`
does not resolve, the raise calls nothing and returns without failure. -/
theorem register_then_raise_on_frame (E W : Type) (call : Callbacks E W) (r : Resolver)
    (m : HMODULE) (w : W) :
    (∀ f : ModEvent, r m "OnFrame" = f → f ≠ nullptr →
        invocations call
            (RegisterEvent r EventLists.initial.modFrameEvents m "OnFrame") w = [f]
          ∧ RaiseEvents call
              (RegisterEvent r EventLists.initial.modFrameEvents m "OnFrame") w = call f w)
      ∧ (r m "OnFrame" = nullptr →
          RaiseEvents (traced call)
              (RegisterEvent r EventLists.initial.modFrameEvents m "OnFrame") (w, [])
            = .returned (w, [])
          ∧ invocations call
              (RegisterEvent r EventLists.initial.modFrameEvents m "OnFrame") w = []
          ∧ RaiseEvents call
              (RegisterEvent r EventLists.initial.modFrameEvents m "OnFrame") w
            = .returned w) := by
  constructor
  · intro f h hf
    subst h
    rw [RegisterEvent_resolved r _ m "OnFrame" hf]
    constructor
    · cases hc : call (r m "OnFrame") w <;>
        simp [invocations, EventLists.initial, RaiseEvents, traced, hc, Outcome.state]
    · cases hc : call (r m "OnFrame") w <;> simp [EventLists.initial, RaiseEvents, hc]
  · intro h
    rw [RegisterEvent_null r _ m "OnFrame" h]
    simp [invocations, EventLists.initial, RaiseEvents, Outcome.state]

theorem register_then_raise_on_frame_witness :
    ((sampleResolver 1 "OnFrame" = 4096 ∧ (4096 : ModEvent) ≠ nullptr)
        ∧ invocations sampleCall
            (RegisterEvent sampleResolver EventLists.initial.modFrameEvents 1 "OnFrame") 3
          = [4096]
        ∧ RaiseEvents sampleCall
            (RegisterEvent sampleResolver EventLists.initial.modFrameEvents 1 "OnFrame") 3
          = sampleCall 4096 3)
      ∧ (sampleResolver 2 "OnFrame" = nullptr
        ∧ RaiseEvents (traced sampleCall)
            (RegisterEvent sampleResolver EventLists.initial.modFrameEvents 2 "OnFrame") (3, [])
          = .returned (3, [])
        ∧ invocations sampleCall
            (RegisterEvent sampleResolver EventLists.initial.modFrameEvents 2 "OnFrame") 3 = []
        ∧ RaiseEvents sampleCall
            (RegisterEvent sampleResolver EventLists.initial.modFrameEvents 2 "OnFrame") 3
          = .returned 3) :=
  ⟨⟨⟨by decide, by decide⟩,
      (register_then_raise_on_frame Nat Nat sampleCall sampleResolver 1 3).1 4096
        (by decide) (by decide)⟩,
    ⟨by decide,
      (register_then_raise_on_frame Nat Nat sampleCall sampleResolver 2 3).2 (by decide)⟩⟩

/-- C9: event lists are append-only. Whatever the resolver returns, the list
after `RegisterEvent(L, module, name)` starts with `L` (its first `|L|` entries
are those of `L`, in place) and is at most one entry longer than `L`. -/
theorem registerEvent_is_append_only (r : Resolver) (L : List ModEvent) (m : HMODULE)
    (n : String) :
    L <+: RegisterEvent r L m n
      ∧ (RegisterEvent r L m n).take L.length = L
      ∧ L.length ≤ (RegisterEvent r L m n).length
      ∧ (RegisterEvent r L m n).length ≤ L.length + 1 := by
  by_cases h : r m n = nullptr
  · rw [RegisterEvent_null r L m n h]
    simp
  · rw [RegisterEvent_resolved r L m n h]
    simp

/-- C10: applying `RegisterEvent` for each request in order to an empty list
gives exactly the non-null resolver results for the requests, in request order;
a raise of the result (callbacks that return) calls those pointers, and only
those, in that order. -/
theorem registerEach_is_resolvedCallbacks (E W : Type) (step : ModEvent → W → W)
    (r : Resolver) (requests : List (HMODULE × String)) (w : W) :
    registerEach r [] requests = resolvedCallbacks r requests
      ∧ invocations (returning step : Callbacks E W) (registerEach r [] requests) w
          = resolvedCallbacks r requests := by
  have h : registerEach r [] requests = resolvedCallbacks r requests := by
    simpa using registerEach_eq r requests []
  exact ⟨h, by rw [invocations_returning, h]⟩

end ManiaModLoader
